import Mathlib

/-!
Shallow embedding of the banner-generation Netlify function
(`extractWebpageContent`, `generateBannerWithAI`, `handler`).

JavaScript strings are modelled as Lean `String`s; the string operations
used by the code (`trim`, `substring`, `toLowerCase`, `split`, regex
scanning) are re-implemented below over `List Char` so that every
definition is executable and decidable.  The external collaborators
(node-fetch, cheerio, the URL parser, JSON.parse, the Anthropic client)
are modelled at their boundary: the parsed document is a `Page` record of
the exact text/attribute values the cheerio queries would return, the
fetch outcome and the model response are oracle inputs, and URL validity
and hostname computation are oracle functions.
-/

set_option maxRecDepth 8000

/-- JavaScript `a || b` on strings: the empty string is the only falsy string. -/
def jsOr (a b : String) : String := if a = "" then b else a

/-- JavaScript `s.substring(0, n)` (counting characters). -/
def strTake (s : String) (n : Nat) : String := String.mk (s.toList.take n)

/-- Drop leading and trailing whitespace from a character list. -/
def trimChars (cs : List Char) : List Char :=
  ((cs.dropWhile Char.isWhitespace).reverse.dropWhile Char.isWhitespace).reverse

/-- JavaScript `s.trim()`. -/
def strTrim (s : String) : String := String.mk (trimChars s.toList)

/-- JavaScript `s.toLowerCase()` (ASCII case folding suffices here). -/
def strToLower (s : String) : String := String.mk (s.toList.map Char.toLower)

/-- JavaScript `s.split(',')` at the character-list level: empty pieces kept. -/
def splitComma : List Char → List (List Char)
  | [] => [[]]
  | c :: rest =>
    match splitComma rest with
    | [] => []
    | cur :: rs => if c = ',' then [] :: cur :: rs else (c :: cur) :: rs

/-- JavaScript `s.split(',')` returning strings. -/
def splitCommaStr (s : String) : List String :=
  (splitComma s.toList).map (fun cs => String.mk cs)

/-- All start indices (offset by `i`) at which `pat` occurs in the list. -/
def occAux (pat : List Char) : List Char → Nat → List Nat
  | [], _ => []
  | c :: rest, i =>
    (if pat.isPrefixOf (c :: rest) then [i] else []) ++ occAux pat rest (i + 1)

/-- All start indices at which `pat` occurs in `cs`, in increasing order. -/
def occs (pat cs : List Char) : List Nat := occAux pat cs 0

/-- Whether `pat` occurs somewhere in `s` (used to state diagnostics facts). -/
def containsStr (s pat : String) : Bool := !(occs pat.toList s.toList).isEmpty

/-- Hexadecimal digit, both cases: the regex character class `[0-9a-fA-F]`. -/
def isHexDig (c : Char) : Bool :=
  ('0' ≤ c && c ≤ '9') || ('a' ≤ c && c ≤ 'f') || ('A' ≤ c && c ≤ 'F')

/-- Take exactly `n` leading hex digits, or fail. -/
def hexRun : List Char → Nat → Option (List Char)
  | _, 0 => some []
  | [], _ + 1 => none
  | c :: rest, k + 1 =>
    if isHexDig c then (hexRun rest k).map (fun ds => c :: ds) else none

/-- Characters strictly before the first `')'`; fails when no `')'` follows.
This is the regex piece `[^)]+\)` minus its nonemptiness check. -/
def upToParen : List Char → Option (List Char)
  | [] => none
  | c :: rest =>
    if c = ')' then some [] else (upToParen rest).map (fun ds => c :: ds)

/-- One attempt of the color regex
`#[0-9a-fA-F]{6}|#[0-9a-fA-F]{3}|rgb\([^)]+\)|rgba\([^)]+\)`
anchored at the head of the list: returns the matched token and the
remaining characters, trying the alternatives in the regex's order. -/
def tryColorAt (cs : List Char) : Option (List Char × List Char) :=
  match cs with
  | '#' :: rest =>
    match hexRun rest 6 with
    | some ds => some ('#' :: ds, rest.drop 6)
    | none =>
      match hexRun rest 3 with
      | some ds => some ('#' :: ds, rest.drop 3)
      | none => none
  | 'r' :: 'g' :: 'b' :: '(' :: rest =>
    match upToParen rest with
    | some run =>
      if run = [] then none
      else some ('r' :: 'g' :: 'b' :: '(' :: (run ++ [')']), rest.drop (run.length + 1))
    | none => none
  | 'r' :: 'g' :: 'b' :: 'a' :: '(' :: rest =>
    match upToParen rest with
    | some run =>
      if run = [] then none
      else some ('r' :: 'g' :: 'b' :: 'a' :: '(' :: (run ++ [')']), rest.drop (run.length + 1))
    | none => none
  | _ => none

/-- Global regex scan: on a match continue after it, otherwise advance one
character.  `fuel` bounds the recursion; one unit per consumed character
suffices. -/
def scanAux : Nat → List Char → List String
  | 0, _ => []
  | _, [] => []
  | fuel + 1, c :: rest =>
    match tryColorAt (c :: rest) with
    | some (tok, after) => String.mk tok :: scanAux fuel after
    | none => scanAux fuel rest

/-- `styleContent.match(/#[0-9a-fA-F]{6}|#[0-9a-fA-F]{3}|rgb\([^)]+\)|rgba\([^)]+\)/g)`
as a list of matched tokens (the empty list standing for a `null` result). -/
def scanColors (s : String) : List String := scanAux s.toList.length s.toList

/-- The blocklist literal of `extractWebpageContent`. -/
def colorBlocklist : List String :=
  ["#000", "#fff", "#ffffff", "#000000", "rgb(0,0,0)", "rgb(255,255,255)"]

/-- `[...new Set(l)]`: JavaScript `Set` deduplication — exact-match
(case-sensitive), keeping the first occurrence of each element. -/
def dedupFirstAux : List String → List String → List String
  | [], _ => []
  | x :: xs, seen =>
    if seen.contains x then dedupFirstAux xs seen
    else x :: dedupFirstAux xs (x :: seen)

/-- The color-extraction block of `extractWebpageContent`: scan the style
text, deduplicate (Set semantics), drop blocklisted values comparing the
lowercased token, keep at most 3. -/
def extractColors (styleText : String) : List String :=
  ((dedupFirstAux (scanColors styleText) []).filter
    (fun c => !(colorBlocklist.contains (strToLower c)))).take 3

/-- The parsed-document view used by `extractWebpageContent`, one field per
cheerio query result: element text is a `String` (empty when no element
matches), attribute reads are `Option String` (`none` for `undefined`). -/
structure Page where
  titleText : String
  ogTitle : Option String
  h1Text : String
  descMeta : Option String
  ogDesc : Option String
  firstParagraph : String
  keywordsMeta : Option String
  mainRegionText : String
  bodyText : String
  styleText : String
  deriving DecidableEq, Repr

/-- The object returned by `extractWebpageContent` on success. -/
structure WebContent where
  title : String
  description : String
  keywords : List String
  mainContent : String
  extractedColors : List String
  domain : String
  deriving DecidableEq, Repr

/-- The title fallback chain:
`$('title').text().trim() || $('meta[property="og:title"]').attr('content')
|| $('h1').first().text().trim() || 'Untitled Page'`.  Note that the
`og:title` attribute value is used as-is, without trimming. -/
def resolveTitle (titleText : String) (ogTitle : Option String) (h1Text : String) : String :=
  jsOr (strTrim titleText)
    (jsOr (ogTitle.getD "") (jsOr (strTrim h1Text) "Untitled Page"))

/-- The description fallback chain of `extractWebpageContent`. -/
def resolveDescription (p : Page) : String :=
  jsOr (p.descMeta.getD "")
    (jsOr (p.ogDesc.getD "")
      (jsOr (strTake (strTrim p.firstParagraph) 200) "No description available"))

/-- `keywordsContent ? keywordsContent.split(',').map(k => k.trim()) : []`. -/
def resolveKeywords (p : Page) : List String :=
  let kc := p.keywordsMeta.getD ""
  if kc = "" then [] else (splitCommaStr kc).map strTrim

/-- The main-content fallback of `extractWebpageContent`. -/
def resolveMain (p : Page) : String :=
  jsOr (strTake (strTrim p.mainRegionText) 500) (strTake (strTrim p.bodyText) 500)

/-- `hostname.replace('www.', '')`: removes the first occurrence only. -/
def stripFirstWWW (hostname : String) : String :=
  match (occs "www.".toList hostname.toList).head? with
  | none => hostname
  | some i => String.mk (hostname.toList.take i ++ hostname.toList.drop (i + 4))

/-- The successful body of `extractWebpageContent` over a parsed page:
fallback chains, the length caps of the returned object, the color
extraction, and the domain computation.  `hostname` stands for
`new URL(url).hostname`. -/
def extractCore (hostname : String) (p : Page) : WebContent :=
  { title := strTake (resolveTitle p.titleText p.ogTitle p.h1Text) 100
    description := strTake (resolveDescription p) 200
    keywords := (resolveKeywords p).take 10
    mainContent := resolveMain p
    extractedColors := extractColors p.styleText
    domain := stripFirstWWW hostname }

/-- Outcome of the `fetch` call and of the subsequent text/parse stage:
`netFail` for a rejected fetch (timeout, DNS, transport), `httpResponse`
for a response with the given status whose body parses to `page`, and
`parseFail` for a response whose `text()`/`cheerio.load` stage throws. -/
inductive FetchOutcome
  | netFail
  | httpResponse (status : Nat) (page : Page)
  | parseFail
  deriving DecidableEq, Repr

/-- node-fetch `response.ok`: status in [200, 300). -/
def statusOk (s : Nat) : Bool := 200 ≤ s && s < 300

/-- `extractWebpageContent`: every failure inside the `try` (network
failure, non-ok status, parse exception) is caught by the single `catch`,
which rethrows the constant `Error('Failed to analyze webpage content')`
— the page URL is not attached to the propagated error. -/
def extractWebpageContent (hostname : String) (f : FetchOutcome) : Except String WebContent :=
  match f with
  | .netFail => .error "Failed to analyze webpage content"
  | .parseFail => .error "Failed to analyze webpage content"
  | .httpResponse status page =>
    if statusOk status then .ok (extractCore hostname page)
    else .error "Failed to analyze webpage content"

/-- The characters of `s` lowercased, for the `i` regex flag. -/
def lowChars (s : String) : List Char := s.toList.map Char.toLower

/-- `svgContent.match(/<svg[\s\S]*<\/svg>/i)`: the leftmost-longest match
is the span from the first case-insensitive occurrence of `<svg` to the
end of the last occurrence of `</svg>` starting at least 4 characters
later; `none` when no such pair exists. -/
def svgExtract (s : String) : Option String :=
  match (occs "<svg".toList (lowChars s)).head? with
  | none => none
  | some p =>
    match ((occs "</svg>".toList (lowChars s)).filter
        (fun q => decide (p + 4 ≤ q))).getLast? with
    | none => none
    | some q => some (String.mk ((s.toList.drop p).take (q + 6 - p)))

/-- `pat` (given lowercased) occurs case-insensitively at index `j` of `s`. -/
def ciOccursAt (pat s : String) (j : Nat) : Prop :=
  pat.toList.isPrefixOf ((lowChars s).drop j) = true

instance (pat s : String) (j : Nat) : Decidable (ciOccursAt pat s j) := by
  unfold ciOccursAt
  infer_instance

/-- The first content block of the model response:
`response.content[0].type === 'text' ? response.content[0].text : ''`. -/
inductive ModelContent
  | text (s : String)
  | nonText
  deriving DecidableEq, Repr

/-- The string the SVG regex is applied to. -/
def svgOfContent : ModelContent → String
  | .text s => s
  | .nonText => ""

/-- The inner SVG extraction of `generateBannerWithAI`: a failed match
throws `Error('No valid SVG found in AI response')`. -/
def extractSvgOrFail (mc : ModelContent) : Except String String :=
  match svgExtract (svgOfContent mc) with
  | some m => .ok m
  | none => .error "No valid SVG found in AI response"

/-- `generateBannerWithAI` after the model call: `netFail` models the
Anthropic client throwing.  Both that failure and the missing-SVG failure
are caught by the `catch`, which rethrows the constant
`Error('Failed to generate banner with AI')`. -/
def generateBannerWithAI (netFail : Bool) (mc : ModelContent) : Except String String :=
  if netFail then .error "Failed to generate banner with AI"
  else
    match extractSvgOrFail mc with
    | .ok m => .ok m
    | .error _ => .error "Failed to generate banner with AI"

/-- The `template` field's TypeScript union type. -/
inductive Template
  | modern
  | minimal
  | gradient
  | bold
  deriving DecidableEq, Repr

/-- The `defaultColorPalettes` literal of the handler. -/
def defaultColorPalettes : Template → List String
  | .modern => ["#3B82F6", "#64748B"]
  | .minimal => ["#1F2937", "#9CA3AF"]
  | .gradient => ["#6366F1", "#EC4899"]
  | .bold => ["#EF4444", "#F59E0B"]

/-- The color-resolution block of the handler (lines 219-224). -/
def resolveColors (t : Template) (extracted : List String) : List String :=
  if 2 ≤ extracted.length then extracted.take 2
  else if extracted.length = 1 then
    [extracted.headD "", (defaultColorPalettes t).getD 1 ""]
  else defaultColorPalettes t

/-- The `AnalysisResult` body of a 200 response. -/
structure AnalysisResult where
  title : String
  description : String
  colors : List String
  keywords : List String
  svgContent : String
  deriving DecidableEq, Repr

/-- The JSON body shapes the handler can return. -/
inductive RespBody
  | empty
  | err (error : String)
  | errMsg (error message : String)
  | result (r : AnalysisResult)
  deriving DecidableEq, Repr

/-- An HTTP response of the handler (the constant CORS headers omitted). -/
structure Response where
  statusCode : Nat
  body : RespBody
  deriving DecidableEq, Repr

/-- The two network calls of the pipeline, recorded in invocation order. -/
inductive Effect
  | fetchCall
  | generateCall
  deriving DecidableEq, Repr

/-- The request body as seen through `JSON.parse(event.body || '{}')`:
`absent`/`emptyStr` are rescued to `'{}'`, `invalidJson` makes the parse
throw, `parsed` carries the `url` and `template` fields (absent fields as
`none`; a `template` value outside the union type is not modelled since
no claim concerns it). -/
inductive ReqBody
  | absent
  | emptyStr
  | invalidJson
  | parsed (url : Option String) (template : Option Template)
  deriving DecidableEq, Repr

/-- The parts of a Netlify event the handler reads. -/
structure Event where
  httpMethod : String
  body : ReqBody
  deriving DecidableEq, Repr

/-- `JSON.parse(event.body || '{}')` destructured into `{ url, template }`:
`none` means the parse threw. -/
def bodyFields : ReqBody → Option (Option String × Option Template)
  | .absent => some (none, none)
  | .emptyStr => some (none, none)
  | .invalidJson => none
  | .parsed u t => some (u, t)

/-- The exported `handler`, returning the response together with the list
of network calls performed.  Oracle inputs: `apiKey` is
`process.env.ANTHROPIC_API_KEY`, `isValidUrl url` is whether `new URL(url)`
succeeds, `hostnameOf url` is `new URL(url).hostname`, `fetchOut` the
fetch outcome, `genNetFail`/`modelResp` the generation-call outcome, and
`jsonErrMsg` the message of the `JSON.parse` exception. -/
def handler (apiKey : Option String) (isValidUrl : String → Bool)
    (hostnameOf : String → String) (fetchOut : FetchOutcome)
    (genNetFail : Bool) (modelResp : ModelContent) (jsonErrMsg : String)
    (ev : Event) : Response × List Effect :=
  if ev.httpMethod = "OPTIONS" then
    ({ statusCode := 200, body := .empty }, [])
  else if ev.httpMethod ≠ "POST" then
    ({ statusCode := 405, body := .err "Method not allowed" }, [])
  else if apiKey.getD "" = "" then
    ({ statusCode := 500,
       body := .errMsg "Internal server error"
         "ANTHROPIC_API_KEY environment variable is not set" }, [])
  else
    match bodyFields ev.body with
    | none => ({ statusCode := 500, body := .errMsg "Internal server error" jsonErrMsg }, [])
    | some (u, t) =>
      match u, t with
      | some url, some template =>
        if url = "" then
          ({ statusCode := 400, body := .err "URL and template are required" }, [])
        else if isValidUrl url then
          match extractWebpageContent (hostnameOf url) fetchOut with
          | .error m =>
            ({ statusCode := 500, body := .errMsg "Internal server error" m },
             [Effect.fetchCall])
          | .ok wc =>
            let colors := resolveColors template wc.extractedColors
            match generateBannerWithAI genNetFail modelResp with
            | .error m =>
              ({ statusCode := 500, body := .errMsg "Internal server error" m },
               [Effect.fetchCall, Effect.generateCall])
            | .ok svg =>
              ({ statusCode := 200,
                 body := .result { title := wc.title, description := wc.description,
                                   colors := colors, keywords := wc.keywords,
                                   svgContent := svg } },
               [Effect.fetchCall, Effect.generateCall])
        else
          ({ statusCode := 400, body := .err "Invalid URL provided" }, [])
      | _, _ =>
        ({ statusCode := 400, body := .err "URL and template are required" }, [])

/-! ### Occurrence-list lemmas -/

theorem occAux_shift (pat : List Char) : ∀ (cs : List Char) (i : Nat),
    occAux pat cs i = (occAux pat cs 0).map (· + i) := by
  intro cs
  induction cs with
  | nil => intro i; simp [occAux]
  | cons c rest ih =>
    intro i
    have hmap : ∀ k : Nat, (occAux pat rest 0).map (· + (1 + k)) =
        ((occAux pat rest 0).map (· + 1)).map (· + k) := by
      intro k
      rw [List.map_map]
      have : ((· + k) ∘ (· + 1)) = (fun x : Nat => x + (1 + k)) := by
        funext x
        simp [Nat.add_assoc]
      rw [this]
    cases hb : pat.isPrefixOf (c :: rest) with
    | false =>
      simp only [occAux, hb, Bool.false_eq_true, if_false, List.nil_append]
      rw [ih (i + 1), ih 1]
      have h1 : i + 1 = 1 + i := Nat.add_comm i 1
      rw [h1, hmap i]
    | true =>
      simp only [occAux, hb, if_true, List.cons_append, List.nil_append,
        List.map_cons, List.map_append]
      rw [ih (i + 1), ih 1]
      have h1 : i + 1 = 1 + i := Nat.add_comm i 1
      rw [h1, hmap i]
      simp [List.singleton_append]

theorem occs_cons (pat : List Char) (c : Char) (rest : List Char) :
    occs pat (c :: rest) =
      (if pat.isPrefixOf (c :: rest) then [0] else []) ++ (occs pat rest).map (· + 1) := by
  cases hb : pat.isPrefixOf (c :: rest) with
  | false =>
    simp only [occs, occAux, hb, Bool.false_eq_true, if_false, List.nil_append]
    exact occAux_shift pat rest 1
  | true =>
    simp only [occs, occAux, hb, if_true, List.cons_append, List.nil_append]
    rw [occAux_shift pat rest 1]

theorem mem_occs (pat : List Char) : ∀ (cs : List Char) (j : Nat),
    j ∈ occs pat cs ↔ pat.isPrefixOf (cs.drop j) = true ∧ j < cs.length := by
  intro cs
  induction cs with
  | nil => intro j; simp [occs, occAux]
  | cons c rest ih =>
    intro j
    rw [occs_cons]
    cases j with
    | zero =>
      cases hb : pat.isPrefixOf (c :: rest) <;>
        simp [hb, List.mem_append, List.mem_map]
    | succ j0 =>
      cases hb : pat.isPrefixOf (c :: rest) <;>
        simp only [hb, Bool.false_eq_true, if_false, if_true, List.mem_append,
          List.mem_map, List.mem_singleton, List.mem_nil_iff, false_or,
          List.drop_succ_cons, List.length_cons] <;>
        constructor
      · rintro ⟨a, ha, haeq⟩
        have : a = j0 := by omega
        subst this
        have := (ih a).mp ha
        exact ⟨this.1, by omega⟩
      · rintro ⟨h1, h2⟩
        exact ⟨j0, (ih j0).mpr ⟨h1, by omega⟩, rfl⟩
      · rintro (h | ⟨a, ha, haeq⟩)
        · omega
        · have : a = j0 := by omega
          subst this
          have := (ih a).mp ha
          exact ⟨this.1, by omega⟩
      · rintro ⟨h1, h2⟩
        exact Or.inr ⟨j0, (ih j0).mpr ⟨h1, by omega⟩, rfl⟩

theorem occ_lt_length (pat cs : List Char) (j : Nat) (hpat : pat ≠ [])
    (h : pat.isPrefixOf (cs.drop j) = true) : j < cs.length := by
  by_contra hge
  have hnil : cs.drop j = [] := List.drop_eq_nil_of_le (by omega)
  rw [hnil] at h
  cases pat with
  | nil => exact hpat rfl
  | cons a as => simp [List.isPrefixOf] at h

theorem occs_pairwise (pat : List Char) : ∀ (cs : List Char),
    (occs pat cs).Pairwise (· < ·) := by
  intro cs
  induction cs with
  | nil => simp [occs, occAux]
  | cons c rest ih =>
    rw [occs_cons]
    rw [List.pairwise_append]
    refine ⟨?_, ?_, ?_⟩
    · cases hb : pat.isPrefixOf (c :: rest) <;> simp [hb]
    · rw [List.pairwise_map]
      exact ih.imp (by omega)
    · intro a ha b hb
      rw [List.mem_map] at hb
      obtain ⟨b0, _, hb0⟩ := hb
      cases hba : pat.isPrefixOf (c :: rest) with
      | false => rw [hba] at ha; simp at ha
      | true =>
        rw [hba] at ha
        simp at ha
        omega

theorem head_some_mem (l : List Nat) (p : Nat) (h : l.head? = some p) : p ∈ l := by
  cases l with
  | nil => simp at h
  | cons a t =>
    simp [List.head?] at h
    subst h
    exact List.mem_cons_self a t

theorem getLast_some_mem : ∀ (l : List Nat) (q : Nat), l.getLast? = some q → q ∈ l := by
  intro l
  induction l with
  | nil => intro q h; simp at h
  | cons a t ih =>
    intro q h
    cases t with
    | nil =>
      simp [List.getLast?] at h
      subst h
      exact List.mem_cons_self a []
    | cons b t2 =>
      rw [List.getLast?_cons_cons] at h
      exact List.mem_cons_of_mem a (ih q h)

theorem head_min_of_pairwise (l : List Nat) (p : Nat) (hp : l.Pairwise (· < ·))
    (hh : l.head? = some p) : ∀ x ∈ l, p ≤ x := by
  cases l with
  | nil => intro x hx; simp at hx
  | cons a t =>
    simp [List.head?] at hh
    subst hh
    intro x hx
    rcases List.mem_cons.mp hx with h | h
    · omega
    · have := (List.pairwise_cons.mp hp).1 x h
      omega

theorem getLast_max_of_pairwise : ∀ (l : List Nat) (q : Nat), l.Pairwise (· < ·) →
    l.getLast? = some q → ∀ x ∈ l, x ≤ q := by
  intro l
  induction l with
  | nil => intro q _ h; simp at h
  | cons a t ih =>
    intro q hp hl x hx
    cases t with
    | nil =>
      simp [List.getLast?] at hl
      rcases List.mem_cons.mp hx with h | h
      · omega
      · simp at h
    | cons b t2 =>
      rw [List.getLast?_cons_cons] at hl
      have htail : (b :: t2).Pairwise (· < ·) := (List.pairwise_cons.mp hp).2
      rcases List.mem_cons.mp hx with h | h
      · have hqmem : q ∈ b :: t2 := getLast_some_mem _ q hl
        have := (List.pairwise_cons.mp hp).1 q hqmem
        omega
      · exact ih q htail hl x h

theorem getLast_cons_ne_none : ∀ (a : Nat) (t : List Nat), (a :: t).getLast? ≠ none := by
  intro a t
  induction t generalizing a with
  | nil => simp [List.getLast?]
  | cons b t2 ih =>
    rw [List.getLast?_cons_cons]
    exact ih b

theorem svgExtract_some_spec (raw m : String) (h : svgExtract raw = some m) :
    ∃ p q, ciOccursAt "<svg" raw p ∧ ciOccursAt "</svg>" raw q ∧ p + 4 ≤ q ∧
      (∀ j, j < p → ¬ ciOccursAt "<svg" raw j) ∧
      (∀ j, ciOccursAt "</svg>" raw j → p + 4 ≤ j → j ≤ q) ∧
      m = String.mk ((raw.toList.drop p).take (q + 6 - p)) := by
  unfold svgExtract at h
  split at h
  · simp at h
  · rename_i p hh
    split at h
    · simp at h
    · rename_i q hl
      have hm : m = String.mk ((raw.toList.drop p).take (q + 6 - p)) := by
        simpa using h.symm
      have hpmem : p ∈ occs "<svg".toList (lowChars raw) := head_some_mem _ p hh
      have hpocc : ciOccursAt "<svg" raw p := ((mem_occs _ _ p).mp hpmem).1
      have hpmin : ∀ j, j < p → ¬ ciOccursAt "<svg" raw j := by
        intro j hj hctr
        have hjlen : j < (lowChars raw).length :=
          occ_lt_length _ _ j (by decide) hctr
        have hjmem : j ∈ occs "<svg".toList (lowChars raw) :=
          (mem_occs _ _ j).mpr ⟨hctr, hjlen⟩
        have := head_min_of_pairwise _ p (occs_pairwise _ _) hh j hjmem
        omega
      have hqmemF := getLast_some_mem _ q hl
      have hqmem := List.mem_filter.mp hqmemF
      have hqocc : ciOccursAt "</svg>" raw q := ((mem_occs _ _ q).mp hqmem.1).1
      have hpq : p + 4 ≤ q := of_decide_eq_true hqmem.2
      have hqmax : ∀ j, ciOccursAt "</svg>" raw j → p + 4 ≤ j → j ≤ q := by
        intro j hjocc hjge
        have hjlen : j < (lowChars raw).length :=
          occ_lt_length _ _ j (by decide) hjocc
        have hjmem : j ∈ occs "</svg>".toList (lowChars raw) :=
          (mem_occs _ _ j).mpr ⟨hjocc, hjlen⟩
        have hjmemF : j ∈ (occs "</svg>".toList (lowChars raw)).filter
            (fun x => decide (p + 4 ≤ x)) :=
          List.mem_filter.mpr ⟨hjmem, decide_eq_true hjge⟩
        have hpw : ((occs "</svg>".toList (lowChars raw)).filter
            (fun x => decide (p + 4 ≤ x))).Pairwise (· < ·) :=
          List.Pairwise.sublist (List.filter_sublist _) (occs_pairwise _ _)
        exact getLast_max_of_pairwise _ q hpw hl j hjmemF
      exact ⟨p, q, hpocc, hqocc, hpq, hpmin, hqmax, hm⟩

theorem svgExtract_none_iff (raw : String) :
    svgExtract raw = none ↔
      ¬ ∃ p q, ciOccursAt "<svg" raw p ∧ ciOccursAt "</svg>" raw q ∧ p + 4 ≤ q := by
  constructor
  · intro h
    rintro ⟨p', q', hp', hq', hpq'⟩
    unfold svgExtract at h
    have hp'len : p' < (lowChars raw).length :=
      occ_lt_length _ _ p' (by decide) hp'
    have hp'mem : p' ∈ occs "<svg".toList (lowChars raw) :=
      (mem_occs _ _ p').mpr ⟨hp', hp'len⟩
    split at h
    · rename_i hh
      cases hocc : occs "<svg".toList (lowChars raw) with
      | nil => rw [hocc] at hp'mem; simp at hp'mem
      | cons a t => rw [hocc] at hh; simp [List.head?] at hh
    · rename_i p hh
      split at h
      case h_2 q hl => simp at h
      case h_1 hl =>
        have hple : p ≤ p' :=
          head_min_of_pairwise _ p (occs_pairwise _ _) hh p' hp'mem
        have hq'len : q' < (lowChars raw).length :=
          occ_lt_length _ _ q' (by decide) hq'
        have hq'mem : q' ∈ occs "</svg>".toList (lowChars raw) :=
          (mem_occs _ _ q').mpr ⟨hq', hq'len⟩
        have hq'memF : q' ∈ (occs "</svg>".toList (lowChars raw)).filter
            (fun x => decide (p + 4 ≤ x)) :=
          List.mem_filter.mpr ⟨hq'mem, decide_eq_true (by omega)⟩
        cases hfil : (occs "</svg>".toList (lowChars raw)).filter
            (fun x => decide (p + 4 ≤ x)) with
        | nil => rw [hfil] at hq'memF; simp at hq'memF
        | cons a t =>
          rw [hfil] at hl
          exact absurd hl (getLast_cons_ne_none a t)
  · intro hno
    cases hres : svgExtract raw with
    | none => rfl
    | some m =>
      obtain ⟨p, q, hp, hq, hpq, _, _, _⟩ := svgExtract_some_spec raw m hres
      exact absurd ⟨p, q, hp, hq, hpq⟩ hno

/-! ### Handler-level helper lemmas -/

theorem resolveColors_length (t : Template) (l : List String) :
    (resolveColors t l).length = 2 := by
  unfold resolveColors
  split
  · rename_i h
    rw [List.length_take]
    omega
  · split
    · simp
    · cases t <;> simp [defaultColorPalettes]

theorem handler_result_colors (apiKey : Option String) (isValidUrl : String → Bool)
    (hostnameOf : String → String) (fetchOut : FetchOutcome) (genNetFail : Bool)
    (modelResp : ModelContent) (jsonErrMsg : String) (ev : Event) (r : AnalysisResult)
    (h : (handler apiKey isValidUrl hostnameOf fetchOut genNetFail modelResp jsonErrMsg ev).1.body
      = RespBody.result r) :
    ∃ t l, r.colors = resolveColors t l := by
  unfold handler at h
  repeat' split at h
  all_goals simp_all
  subst h
  exact ⟨_, _, rfl⟩

theorem handler_gen_count (apiKey : Option String) (isValidUrl : String → Bool)
    (hostnameOf : String → String) (fetchOut : FetchOutcome) (genNetFail : Bool)
    (modelResp : ModelContent) (jsonErrMsg : String) (ev : Event) :
    ((handler apiKey isValidUrl hostnameOf fetchOut genNetFail modelResp jsonErrMsg ev).2.count
      Effect.generateCall) ≤ 1 := by
  unfold handler
  repeat' split
  all_goals simp [List.count_cons, List.count_nil]

/-! ### Claim theorems -/

/-- C1 counterexample: on a style text whose color scan yields exactly
`#000000`, `#3B82F6`, `#3b82f6`, `#ffffff`, the extraction returns
`["#3B82F6", "#3b82f6"]`, not `["#3B82F6"]`: the `Set`-based
deduplication compares exact strings, so the two case variants both
survive. -/
theorem c1_counterexample :
    extractColors "#000000 #3B82F6 #3b82f6 #ffffff" = ["#3B82F6", "#3b82f6"] ∧
    extractColors "#000000 #3B82F6 #3b82f6 #ffffff" ≠ ["#3B82F6"] := by
  decide

/-- C1 (amended): for every style text containing exactly the color tokens
`#000000`, `#3B82F6`, `#3b82f6`, `#ffffff` in that order, the color
extraction returns `["#3B82F6", "#3b82f6"]`: the blocklist (pure
black/white) is applied case-insensitively to hex values, but duplicate
collapsing is case-sensitive (exact string match), so case-variant
duplicates are all kept. -/
theorem c1_color_dedup_case_sensitive :
    ∀ styleText : String,
      scanColors styleText = ["#000000", "#3B82F6", "#3b82f6", "#ffffff"] →
      extractColors styleText = ["#3B82F6", "#3b82f6"] := by
  intro s h
  unfold extractColors
  rw [h]
  decide

/-- C1 witness: the amended statement at a concrete style text. -/
theorem c1_witness :
    extractColors "#000000 #3B82F6 #3b82f6 #ffffff" = ["#3B82F6", "#3b82f6"] :=
  c1_color_dedup_case_sensitive "#000000 #3B82F6 #3b82f6 #ffffff" (by decide)

/-- C2: the color-resolution policy of the handler — zero extracted colors
keep the template's fixed default pair, one extracted color takes the
first slot with the template's default second color, two or more extracted
colors give the first two, and the resolved list always has exactly 2
entries; moreover every 200 response body built by the handler carries a
`colors` list of length 2. -/
theorem c2_colors_resolution :
    (∀ (t : Template) (extracted : List String),
      (extracted = [] → resolveColors t extracted = defaultColorPalettes t) ∧
      (∀ c, extracted = [c] →
        resolveColors t extracted = [c, (defaultColorPalettes t).getD 1 ""]) ∧
      (2 ≤ extracted.length → resolveColors t extracted = extracted.take 2) ∧
      (resolveColors t extracted).length = 2) ∧
    (∀ (apiKey : Option String) (isValidUrl : String → Bool) (hostnameOf : String → String)
      (fetchOut : FetchOutcome) (genNetFail : Bool) (modelResp : ModelContent)
      (jsonErrMsg : String) (ev : Event) (r : AnalysisResult),
      (handler apiKey isValidUrl hostnameOf fetchOut genNetFail modelResp jsonErrMsg ev).1.body
        = RespBody.result r → r.colors.length = 2) := by
  constructor
  · intro t extracted
    refine ⟨?_, ?_, ?_, resolveColors_length t extracted⟩
    · intro he
      subst he
      cases t <;> decide
    · intro c he
      subst he
      unfold resolveColors
      simp
    · intro hle
      unfold resolveColors
      rw [if_pos hle]
  · intro apiKey iv ho fo gf mr jm ev r h
    obtain ⟨t, l, hcol⟩ := handler_result_colors apiKey iv ho fo gf mr jm ev r h
    rw [hcol]
    exact resolveColors_length t l

/-- C2 witness: the three policy cases at concrete inputs. -/
theorem c2_witness :
    resolveColors Template.modern [] = defaultColorPalettes Template.modern ∧
    resolveColors Template.modern ["#112233"] =
      ["#112233", (defaultColorPalettes Template.modern).getD 1 ""] ∧
    resolveColors Template.bold ["a", "b", "c"] = ["a", "b", "c"].take 2 :=
  ⟨(c2_colors_resolution.1 Template.modern []).1 rfl,
   (c2_colors_resolution.1 Template.modern ["#112233"]).2.1 "#112233" rfl,
   (c2_colors_resolution.1 Template.bold ["a", "b", "c"]).2.2.1 (by decide)⟩

/-- C3 counterexample: a document with no `<title>` and
`og:title = " My Title "`: the extracted title is the attribute value
as-is, which differs from its trimmed form — the code never trims the
`og:title` content. -/
theorem c3_counterexample :
    (extractCore "example.com"
      { titleText := "", ogTitle := some " My Title ", h1Text := "Heading",
        descMeta := none, ogDesc := none, firstParagraph := "", keywordsMeta := none,
        mainRegionText := "", bodyText := "", styleText := "" }).title = " My Title " ∧
    " My Title " ≠ strTrim " My Title " := by
  decide

/-- C3 (amended): the title fallback chain is exactly trimmed `<title>`
text, then the `og:title` meta content used as-is (untrimmed), then the
trimmed first `<h1>` text, then the sentinel `"Untitled Page"`; in
particular a document lacking a `<title>` but carrying a nonempty
`og:title` resolves to the untrimmed `og:title` content. -/
theorem c3_title_fallback_chain :
    ∀ (titleText h1Text : String) (ogTitle : Option String),
      (∀ c, strTrim titleText = "" → ogTitle = some c → c ≠ "" →
        resolveTitle titleText ogTitle h1Text = c) ∧
      (strTrim titleText ≠ "" →
        resolveTitle titleText ogTitle h1Text = strTrim titleText) ∧
      (strTrim titleText = "" → ogTitle.getD "" = "" → strTrim h1Text ≠ "" →
        resolveTitle titleText ogTitle h1Text = strTrim h1Text) ∧
      (strTrim titleText = "" → ogTitle.getD "" = "" → strTrim h1Text = "" →
        resolveTitle titleText ogTitle h1Text = "Untitled Page") := by
  intro tt h1 og
  refine ⟨?_, ?_, ?_, ?_⟩ <;> unfold resolveTitle jsOr <;> intros <;> simp_all

/-- C3 witness: the og:title case of the amended chain at concrete input. -/
theorem c3_witness :
    resolveTitle "" (some " My Title ") "Heading" = " My Title " :=
  (c3_title_fallback_chain "" "Heading" (some " My Title ")).1 " My Title "
    (by decide) rfl (by decide)

/-- C4: the artifact validator of `generateBannerWithAI` — a successful
match is exactly the case-insensitive span from the first `<svg` to the
end of the last `</svg>` beginning at least 4 characters later (commentary
and code fences around it are discarded); no match exists iff no such
open/close pair exists, in which case the generation step fails with the
artifact-format error (caught and rethrown as
`'Failed to generate banner with AI'`), no result is produced, and the
handler never performs more than one generation call (no retry). -/
theorem c4_artifact_validator :
    ∀ raw : String,
      (∀ m, svgExtract raw = some m →
        ∃ p q, ciOccursAt "<svg" raw p ∧ ciOccursAt "</svg>" raw q ∧ p + 4 ≤ q ∧
          (∀ j, j < p → ¬ ciOccursAt "<svg" raw j) ∧
          (∀ j, ciOccursAt "</svg>" raw j → p + 4 ≤ j → j ≤ q) ∧
          m = String.mk ((raw.toList.drop p).take (q + 6 - p))) ∧
      (svgExtract raw = none ↔
        ¬ ∃ p q, ciOccursAt "<svg" raw p ∧ ciOccursAt "</svg>" raw q ∧ p + 4 ≤ q) ∧
      (svgExtract raw = none →
        generateBannerWithAI false (ModelContent.text raw) =
          Except.error "Failed to generate banner with AI") ∧
      (∀ (apiKey : Option String) (isValidUrl : String → Bool) (hostnameOf : String → String)
        (fetchOut : FetchOutcome) (genNetFail : Bool) (modelResp : ModelContent)
        (jsonErrMsg : String) (ev : Event),
        ((handler apiKey isValidUrl hostnameOf fetchOut genNetFail modelResp jsonErrMsg
          ev).2.count Effect.generateCall) ≤ 1) := by
  intro raw
  refine ⟨fun m hm => svgExtract_some_spec raw m hm, svgExtract_none_iff raw, ?_, ?_⟩
  · intro hn
    simp [generateBannerWithAI, extractSvgOrFail, svgOfContent, hn]
  · intro apiKey iv ho fo gf mr jm ev
    exact handler_gen_count apiKey iv ho fo gf mr jm ev

/-- C4 witness: a response with no SVG fragment fails with the constant
generation error. -/
theorem c4_witness :
    generateBannerWithAI false (ModelContent.text "plain prose, no tags") =
      Except.error "Failed to generate banner with AI" :=
  (c4_artifact_validator "plain prose, no tags").2.2.1 (by decide)

/-- C5 counterexample: with the credential absent, a POST request with
both fields missing is answered 500 (the credential check precedes field
validation), not 400 as the claim states. -/
theorem c5_counterexample :
    (handler none (fun _ => true) (fun _ => "example.com") FetchOutcome.netFail false
        ModelContent.nonText "json"
        { httpMethod := "POST", body := ReqBody.parsed none none }).1.statusCode = 500 ∧
    (handler none (fun _ => true) (fun _ => "example.com") FetchOutcome.netFail false
        ModelContent.nonText "json"
        { httpMethod := "POST", body := ReqBody.parsed none none }).1.statusCode ≠ 400 := by
  decide

/-- C5 (amended): for every POST request processed with the credential
set, if the `url` or `template` field is absent (or empty, which the
truthiness check conflates with absent), the handler returns 400 with
error `"URL and template are required"` and performs no fetch and no
generation call. -/
theorem c5_missing_fields_400 :
    ∀ (apiKey : Option String) (isValidUrl : String → Bool) (hostnameOf : String → String)
      (fetchOut : FetchOutcome) (genNetFail : Bool) (modelResp : ModelContent)
      (jsonErrMsg : String) (b : ReqBody) (u : Option String) (t : Option Template),
      apiKey.getD "" ≠ "" →
      bodyFields b = some (u, t) →
      (u.getD "" = "" ∨ t = none) →
      handler apiKey isValidUrl hostnameOf fetchOut genNetFail modelResp jsonErrMsg
          { httpMethod := "POST", body := b } =
        ({ statusCode := 400, body := RespBody.err "URL and template are required" }, []) := by
  intro apiKey iv ho fo gf mr jm b u t hkey hbf hmiss
  rcases hmiss with hu | ht
  · cases u with
    | none => simp [handler, hkey, hbf]
    | some url =>
      have hurl : url = "" := by simpa using hu
      subst hurl
      cases t with
      | none => simp [handler, hkey, hbf]
      | some tpl => simp [handler, hkey, hbf]
  · subst ht
    cases u with
    | none => simp [handler, hkey, hbf]
    | some url => simp [handler, hkey, hbf]

/-- C5 witness: the amended statement at a concrete request. -/
theorem c5_witness :
    handler (some "key") (fun _ => true) (fun _ => "example.com") FetchOutcome.netFail false
        ModelContent.nonText "json" { httpMethod := "POST", body := ReqBody.parsed none none } =
      ({ statusCode := 400, body := RespBody.err "URL and template are required" }, []) :=
  c5_missing_fields_400 (some "key") (fun _ => true) (fun _ => "example.com")
    FetchOutcome.netFail false ModelContent.nonText "json" (ReqBody.parsed none none)
    none none (by decide) rfl (Or.inl rfl)

/-- C6 counterexample: an OPTIONS request processed while the credential
is absent is answered 200 (the CORS preflight branch precedes the
credential check), not 500 as the claim's universal quantification over
requests demands. -/
theorem c6_counterexample :
    (handler none (fun _ => true) (fun _ => "example.com") FetchOutcome.netFail false
        ModelContent.nonText "json"
        { httpMethod := "OPTIONS", body := ReqBody.absent }).1.statusCode = 200 ∧
    (handler none (fun _ => true) (fun _ => "example.com") FetchOutcome.netFail false
        ModelContent.nonText "json"
        { httpMethod := "OPTIONS", body := ReqBody.absent }).1.statusCode ≠ 500 := by
  decide

/-- C6 (amended): for every POST request processed while the credential is
absent (unset or empty), the handler returns 500 with the descriptive
message `"ANTHROPIC_API_KEY environment variable is not set"`, and no
network call (neither fetch nor generation) is performed. -/
theorem c6_missing_credential_500 :
    ∀ (apiKey : Option String) (isValidUrl : String → Bool) (hostnameOf : String → String)
      (fetchOut : FetchOutcome) (genNetFail : Bool) (modelResp : ModelContent)
      (jsonErrMsg : String) (b : ReqBody),
      apiKey.getD "" = "" →
      handler apiKey isValidUrl hostnameOf fetchOut genNetFail modelResp jsonErrMsg
          { httpMethod := "POST", body := b } =
        ({ statusCode := 500,
           body := RespBody.errMsg "Internal server error"
             "ANTHROPIC_API_KEY environment variable is not set" }, []) := by
  intro apiKey iv ho fo gf mr jm b hkey
  simp [handler, hkey]

/-- C6 witness: the amended statement at a concrete request. -/
theorem c6_witness :
    handler none (fun _ => true) (fun _ => "example.com") FetchOutcome.netFail false
        ModelContent.nonText "json" { httpMethod := "POST", body := ReqBody.absent } =
      ({ statusCode := 500,
         body := RespBody.errMsg "Internal server error"
           "ANTHROPIC_API_KEY environment variable is not set" }, []) :=
  c6_missing_credential_500 none (fun _ => true) (fun _ => "example.com")
    FetchOutcome.netFail false ModelContent.nonText "json" ReqBody.absent rfl

/-- C7 counterexample: a present-but-empty `url` fails URL-syntax
validation yet is answered with the missing-fields 400 body, not
`"Invalid URL provided"`; and with the credential absent, `"not a url"`
is answered 500, not 400. -/
theorem c7_counterexample :
    handler (some "key") (fun _ => false) (fun _ => "example.com") FetchOutcome.netFail false
        ModelContent.nonText "json"
        { httpMethod := "POST", body := ReqBody.parsed (some "") (some Template.modern) } =
      ({ statusCode := 400, body := RespBody.err "URL and template are required" }, []) ∧
    RespBody.err "URL and template are required" ≠ RespBody.err "Invalid URL provided" ∧
    (handler none (fun _ => false) (fun _ => "example.com") FetchOutcome.netFail false
        ModelContent.nonText "json"
        { httpMethod := "POST",
          body := ReqBody.parsed (some "not a url") (some Template.modern) }).1.statusCode
      = 500 := by
  decide

/-- C7 (amended): for every POST request processed with the credential
set whose `url` and `template` fields are present and nonempty, if the
`url` fails URL-syntax validation the handler returns 400 with error
`"Invalid URL provided"` and the fetcher is never invoked (no recorded
network call). -/
theorem c7_invalid_url_400 :
    ∀ (apiKey : Option String) (isValidUrl : String → Bool) (hostnameOf : String → String)
      (fetchOut : FetchOutcome) (genNetFail : Bool) (modelResp : ModelContent)
      (jsonErrMsg : String) (url : String) (t : Template),
      apiKey.getD "" ≠ "" →
      url ≠ "" →
      isValidUrl url = false →
      handler apiKey isValidUrl hostnameOf fetchOut genNetFail modelResp jsonErrMsg
          { httpMethod := "POST", body := ReqBody.parsed (some url) (some t) } =
        ({ statusCode := 400, body := RespBody.err "Invalid URL provided" }, []) := by
  intro apiKey iv ho fo gf mr jm url t hkey hurl hval
  simp [handler, bodyFields, hkey, hurl, hval]

/-- C7 witness: the amended statement at a concrete request. -/
theorem c7_witness :
    handler (some "key") (fun _ => false) (fun _ => "example.com") FetchOutcome.netFail false
        ModelContent.nonText "json"
        { httpMethod := "POST",
          body := ReqBody.parsed (some "not a url") (some Template.modern) } =
      ({ statusCode := 400, body := RespBody.err "Invalid URL provided" }, []) :=
  c7_invalid_url_400 (some "key") (fun _ => false) (fun _ => "example.com")
    FetchOutcome.netFail false ModelContent.nonText "json" "not a url" Template.modern
    (by decide) (by decide) rfl

/-- C8 counterexample: pure black written in `rgba()` notation, and pure
black written as `rgb()` with spaces, are extracted, not excluded — the
blocklist holds only the six exact strings
`#000, #fff, #ffffff, #000000, rgb(0,0,0), rgb(255,255,255)`. -/
theorem c8_counterexample :
    extractColors "rgba(0,0,0,1)" = ["rgba(0,0,0,1)"] ∧
    extractColors "rgb(0, 0, 0)" = ["rgb(0, 0, 0)"] := by
  decide

/-- C8 (amended): for every style text, every extracted color fails the
fixed six-entry blocklist after lowercasing — pure black/white in 3- and
6-digit hex and in unspaced `rgb()` form are excluded case-insensitively,
but `rgba()` variants and whitespace variants of the functional notation
are not excluded. -/
theorem c8_blocklist_exact :
    ∀ (styleText c : String), c ∈ extractColors styleText →
      colorBlocklist.contains (strToLower c) = false := by
  intro s c hc
  unfold extractColors at hc
  have h1 := List.mem_of_mem_take hc
  have h2 := List.mem_filter.mp h1
  have h3 := h2.2
  simpa using h3

/-- C8 witness: the amended statement at a concrete style text and color. -/
theorem c8_witness :
    colorBlocklist.contains (strToLower "#123456") = false :=
  c8_blocklist_exact "#123456" "#123456" (by decide)

/-- C9 counterexample: the error propagated out of the extraction stage is
the constant `'Failed to analyze webpage content'` — it does not contain
the page URL or hostname, and it is identical for different URLs, so it
carries no URL for diagnostics. -/
theorem c9_counterexample :
    extractWebpageContent "example.com" FetchOutcome.netFail =
      Except.error "Failed to analyze webpage content" ∧
    containsStr "Failed to analyze webpage content" "example.com" = false ∧
    extractWebpageContent "site-a.com" FetchOutcome.netFail =
      extractWebpageContent "site-b.com" FetchOutcome.netFail :=
  ⟨rfl, by decide, rfl⟩

/-- C9 (amended): every failure during fetch or parsing (network failure
or timeout, non-2xx status, parse exception) propagates as an error with
the constant message `"Failed to analyze webpage content"` (no page URL
attached), and the handler maps it to a 500 response with error
`"Internal server error"` and message `"Failed to analyze webpage
content"`, having performed only the fetch call. -/
theorem c9_extraction_failure_mapping :
    (∀ (hostname : String) (f : FetchOutcome),
      (f = FetchOutcome.netFail ∨ f = FetchOutcome.parseFail ∨
        ∃ st pg, f = FetchOutcome.httpResponse st pg ∧ statusOk st = false) →
      extractWebpageContent hostname f = Except.error "Failed to analyze webpage content") ∧
    (∀ (apiKey : Option String) (isValidUrl : String → Bool) (hostnameOf : String → String)
      (fetchOut : FetchOutcome) (genNetFail : Bool) (modelResp : ModelContent)
      (jsonErrMsg : String) (url : String) (t : Template),
      apiKey.getD "" ≠ "" → url ≠ "" → isValidUrl url = true →
      extractWebpageContent (hostnameOf url) fetchOut =
        Except.error "Failed to analyze webpage content" →
      handler apiKey isValidUrl hostnameOf fetchOut genNetFail modelResp jsonErrMsg
          { httpMethod := "POST", body := ReqBody.parsed (some url) (some t) } =
        ({ statusCode := 500,
           body := RespBody.errMsg "Internal server error"
             "Failed to analyze webpage content" },
         [Effect.fetchCall])) := by
  constructor
  · rintro hostname f (rfl | rfl | ⟨st, pg, rfl, hst⟩)
    · rfl
    · rfl
    · simp [extractWebpageContent, hst]
  · intro apiKey iv ho fo gf mr jm url t hkey hurl hval hext
    simp [handler, bodyFields, hkey, hurl, hval, hext]

/-- C9 witness: the amended mapping at a concrete failing fetch. -/
theorem c9_witness :
    handler (some "key") (fun _ => true) (fun _ => "example.com") FetchOutcome.netFail false
        ModelContent.nonText "json"
        { httpMethod := "POST",
          body := ReqBody.parsed (some "https://example.com") (some Template.modern) } =
      ({ statusCode := 500,
         body := RespBody.errMsg "Internal server error" "Failed to analyze webpage content" },
       [Effect.fetchCall]) :=
  c9_extraction_failure_mapping.2 (some "key") (fun _ => true) (fun _ => "example.com")
    FetchOutcome.netFail false ModelContent.nonText "json" "https://example.com"
    Template.modern (by decide) (by decide) rfl rfl

/-- C10: with the credential set, a POST body that is present but not
valid JSON falls through to the catch-all and is answered 500 with error
`"Internal server error"` (the parse exception's message in the `message`
field), never the invalid-input 400; an absent or empty body is instead
rescued to `'{}'` and treated as missing fields, answered 400. -/
theorem c10_invalid_json_500 :
    ∀ (apiKey : Option String) (isValidUrl : String → Bool) (hostnameOf : String → String)
      (fetchOut : FetchOutcome) (genNetFail : Bool) (modelResp : ModelContent)
      (jsonErrMsg : String),
      apiKey.getD "" ≠ "" →
      (handler apiKey isValidUrl hostnameOf fetchOut genNetFail modelResp jsonErrMsg
          { httpMethod := "POST", body := ReqBody.invalidJson } =
        ({ statusCode := 500,
           body := RespBody.errMsg "Internal server error" jsonErrMsg }, []) ∧
       ∀ b : ReqBody, b = ReqBody.absent ∨ b = ReqBody.emptyStr →
         handler apiKey isValidUrl hostnameOf fetchOut genNetFail modelResp jsonErrMsg
             { httpMethod := "POST", body := b } =
           ({ statusCode := 400,
              body := RespBody.err "URL and template are required" }, [])) := by
  intro apiKey iv ho fo gf mr jm hkey
  constructor
  · simp [handler, bodyFields, hkey]
  · rintro b (rfl | rfl) <;> simp [handler, bodyFields, hkey]

/-- C10 witness: the confirmed statement at a concrete request. -/
theorem c10_witness :
    handler (some "key") (fun _ => true) (fun _ => "example.com") FetchOutcome.netFail false
        ModelContent.nonText "Unexpected token"
        { httpMethod := "POST", body := ReqBody.invalidJson } =
      ({ statusCode := 500,
         body := RespBody.errMsg "Internal server error" "Unexpected token" }, []) :=
  (c10_invalid_json_500 (some "key") (fun _ => true) (fun _ => "example.com")
    FetchOutcome.netFail false ModelContent.nonText "Unexpected token" (by decide)).1

